import Mathlib

/-!
Verification of the aws-auth-operator reconciliation core.

The Rust sources embedded here:
  * `src/bin/operator.rs` — current binary: `apply`, `cleanup`, the
    controller closure's namespace handling, and the requeue actions.
  * `src/main.rs` — legacy binary: `apply`, `cleanup`, `requeue`.

Shallow embedding conventions:
  * `MapRoleSpec` mirrors the Rust struct (rolearn / username / groups).
  * The aws-auth ConfigMap is a record with an optional association list
    `data`; `mapGet` is BTreeMap lookup.
  * External effects (the `api.get` fetch and the `api.patch` submission)
    are modelled by an `Env` record holding their results; YAML
    deserialization (`serde_yaml::from_str`) and serialization
    (`serde_yaml::to_string`) are parameters `dec` / `enc`, both fallible
    exactly as in the source (`?` propagation).
  * `.unwrap()` on a `None` is an uncatchable fault, modelled by the
    `StepResult.panic` constructor; `Result::Err` values returned with `?`
    are `StepResult.err`.
  * An attempt's observable behaviour is an `AttemptLog`: its returned
    value (or error / panic) plus the JSON patch it submitted, if any.
-/

namespace AwsAuth

/-- Rust `MapRoleSpec` (src/main.rs lines 21-28, src/lib.rs lines 1-15):
rolearn, username, groups. -/
structure MapRoleSpec where
  rolearn : String
  username : String
  groups : List String
deriving Repr, DecidableEq

/-- `json_patch::PatchOperation`, restricted to the two variants the
program builds: `Test` and `Replace`, each with a path and a string value. -/
inductive PatchOperation where
  | test (path : String) (value : String)
  | replace (path : String) (value : String)
deriving Repr, DecidableEq

abbrev Patch := List PatchOperation

/-- `k8s_openapi` ConfigMap, restricted to the `data` section the program
reads: an optional string-to-string map (association list). -/
structure ConfigMap where
  data : Option (List (String × String))
deriving Repr, DecidableEq

/-- BTreeMap `get`: first association for the key, if any. -/
def mapGet (m : List (String × String)) (k : String) : Option String :=
  (m.find? (fun p => p.1 = k)).map (fun p => p.2)

/-- `aws_auth_cm.data.as_ref()` then `.get("mapRoles")`, without the
unwraps: `none` when either the data section or the key is missing. -/
def ConfigMap.getData (cm : ConfigMap) (k : String) : Option String :=
  cm.data.bind (fun m => mapGet m k)

/-- The `AppError` enum shared by both binaries: a kube API error or a
serde_yaml error. -/
inductive AppError where
  | kubeError
  | yamlError
deriving Repr, DecidableEq

/-- What one reconciliation attempt returns to its caller: the success
value, a returned `Err`, or an uncatchable fault from `.unwrap()`. -/
inductive StepResult (α : Type) where
  | ok (a : α)
  | err (e : AppError)
  | panic
deriving Repr, DecidableEq

/-- Erase the success payload, keeping only the shape of the result
(ok / which error / panic). -/
def StepResult.forget {α : Type} : StepResult α → StepResult Unit
  | .ok _ => .ok ()
  | .err e => .err e
  | .panic => .panic

/-- Observable behaviour of one attempt: its result and the patch it
submitted to the shared ConfigMap, if any. -/
structure AttemptLog (α : Type) where
  result : StepResult α
  submitted : Option Patch
deriving Repr, DecidableEq

/-- Results of the two external calls an attempt makes: the
`api.get("aws-auth")` fetch and the `api.patch` submission. -/
structure Env where
  fetchResult : Except Unit ConfigMap
  patchResult : Except Unit Unit

/-- `kube::runtime::controller::Action` as used by operator.rs:
`Action::requeue(d)` or `Action::await_change()`. -/
inductive Action where
  | requeue (secs : Nat)
  | awaitChange
deriving Repr, DecidableEq

/-- `ReconcilerAction` of the legacy kube runtime used by main.rs:
an optional requeue delay. -/
structure ReconcilerAction where
  requeue_after : Option Nat
deriving Repr, DecidableEq

/-- The finalizer event dispatched by both binaries' controller closures. -/
inductive FinalizerEvent where
  | applyEv
  | cleanupEv
deriving Repr, DecidableEq

namespace Operator

/-- The merge loop of operator.rs `apply` (lines 100-111):
`iter_mut().find(|e| e.rolearn == mr.spec.rolearn)`, then on the first
match either update `username`/`groups` in place (when either differs) or
leave the list untouched, and when no entry matches push the desired spec
at the end. Returns the resulting list and whether it changed. -/
def applyMerge (entries : List MapRoleSpec) (d : MapRoleSpec) :
    List MapRoleSpec × Bool :=
  match entries with
  | [] => ([d], true)
  | e :: rest =>
    if e.rolearn = d.rolearn then
      if e.username ≠ d.username ∨ e.groups ≠ d.groups then
        ({ e with username := d.username, groups := d.groups } :: rest, true)
      else
        (e :: rest, false)
    else
      let r := applyMerge rest d
      (e :: r.1, r.2)

/-- The removal loop of operator.rs `cleanup` (lines 138-143): find the
index of the first entry whose `rolearn` matches and `remove` it; when no
entry matches the list is unchanged. Returns the resulting list and
whether an entry was removed. -/
def cleanupMerge (entries : List MapRoleSpec) (d : MapRoleSpec) :
    List MapRoleSpec × Bool :=
  match entries with
  | [] => ([], false)
  | e :: rest =>
    if e.rolearn = d.rolearn then
      (rest, true)
    else
      let r := cleanupMerge rest d
      (e :: r.1, r.2)

/-- operator.rs `apply` (lines 95-131). Fetch the aws-auth ConfigMap
(`?` on failure), unwrap its data section and `mapRoles` field (panic on
`None`), YAML-decode (`?`), merge; when the entry is already identical,
return `Action::requeue(60)` with no patch; otherwise YAML-encode (`?`)
and submit a Test/Replace patch, returning `Action::requeue(300)` on
success. -/
def apply (dec : String → Except Unit (List MapRoleSpec))
    (enc : List MapRoleSpec → Except Unit String)
    (env : Env) (spec : MapRoleSpec) : AttemptLog Action :=
  match env.fetchResult with
  | .error _ => ⟨.err .kubeError, none⟩
  | .ok cm =>
    match cm.data with
    | none => ⟨.panic, none⟩
    | some m =>
      match mapGet m "mapRoles" with
      | none => ⟨.panic, none⟩
      | some cmStr =>
        match dec cmStr with
        | .error _ => ⟨.err .yamlError, none⟩
        | .ok entries =>
          let r := applyMerge entries spec
          if r.2 then
            match enc r.1 with
            | .error _ => ⟨.err .yamlError, none⟩
            | .ok newStr =>
              let patch : Patch :=
                [PatchOperation.test "/data/mapRoles" cmStr,
                 PatchOperation.replace "/data/mapRoles" newStr]
              match env.patchResult with
              | .error _ => ⟨.err .kubeError, some patch⟩
              | .ok _ => ⟨.ok (.requeue 300), some patch⟩
          else
            ⟨.ok (.requeue 60), none⟩

/-- operator.rs `cleanup` (lines 133-164). Fetch, unwrap, decode as in
`apply`; when an entry with the desired rolearn exists, remove it,
YAML-encode and submit the Test/Replace patch; in every non-error path
return `Action::await_change()`. -/
def cleanup (dec : String → Except Unit (List MapRoleSpec))
    (enc : List MapRoleSpec → Except Unit String)
    (env : Env) (spec : MapRoleSpec) : AttemptLog Action :=
  match env.fetchResult with
  | .error _ => ⟨.err .kubeError, none⟩
  | .ok cm =>
    match cm.data with
    | none => ⟨.panic, none⟩
    | some m =>
      match mapGet m "mapRoles" with
      | none => ⟨.panic, none⟩
      | some cmStr =>
        match dec cmStr with
        | .error _ => ⟨.err .yamlError, none⟩
        | .ok entries =>
          let r := cleanupMerge entries spec
          if r.2 then
            match enc r.1 with
            | .error _ => ⟨.err .yamlError, none⟩
            | .ok newStr =>
              let patch : Patch :=
                [PatchOperation.test "/data/mapRoles" cmStr,
                 PatchOperation.replace "/data/mapRoles" newStr]
              match env.patchResult with
              | .error _ => ⟨.err .kubeError, some patch⟩
              | .ok _ => ⟨.ok .awaitChange, some patch⟩
          else
            ⟨.ok .awaitChange, none⟩

/-- A `MapRole` object as the operator.rs controller closure sees it: its
metadata namespace (optional) and its spec. -/
structure MapRole where
  namespace_ : Option String
  spec : MapRoleSpec
deriving Repr, DecidableEq

/-- The operator.rs controller closure (lines 57-72):
`maprole.meta().namespace.as_deref().unwrap()` (panic when the object has
no namespace), then dispatch the finalizer event to `apply` or
`cleanup`. -/
def reconcile (dec : String → Except Unit (List MapRoleSpec))
    (enc : List MapRoleSpec → Except Unit String)
    (env : Env) (ev : FinalizerEvent) (mr : MapRole) : AttemptLog Action :=
  match mr.namespace_ with
  | none => ⟨.panic, none⟩
  | some _ =>
    match ev with
    | .applyEv => apply dec enc env mr.spec
    | .cleanupEv => cleanup dec enc env mr.spec

end Operator

namespace Legacy

/-- main.rs `requeue` helper (lines 183-190): 0 means no requeue,
otherwise requeue after that many seconds. -/
def requeue (secs : Nat) : ReconcilerAction :=
  match secs with
  | 0 => ⟨none⟩
  | t => ⟨some t⟩

/-- The merge loop of main.rs `apply` (lines 117-128), translated
independently of the operator.rs version: first match by rolearn, update
username/groups in place when either differs, otherwise unchanged, append
when absent. -/
def applyMerge (entries : List MapRoleSpec) (d : MapRoleSpec) :
    List MapRoleSpec × Bool :=
  match entries with
  | [] => ([d], true)
  | e :: rest =>
    if e.rolearn = d.rolearn then
      if e.username ≠ d.username ∨ e.groups ≠ d.groups then
        ({ e with username := d.username, groups := d.groups } :: rest, true)
      else
        (e :: rest, false)
    else
      let r := applyMerge rest d
      (e :: r.1, r.2)

/-- The removal loop of main.rs `cleanup` (lines 155-160): remove the
first entry whose rolearn matches, if any. -/
def cleanupMerge (entries : List MapRoleSpec) (d : MapRoleSpec) :
    List MapRoleSpec × Bool :=
  match entries with
  | [] => ([], false)
  | e :: rest =>
    if e.rolearn = d.rolearn then
      (rest, true)
    else
      let r := cleanupMerge rest d
      (e :: r.1, r.2)

/-- main.rs `apply` (lines 112-148): same fetch / unwrap / decode / merge
/ conditional patch as the operator.rs version, but returns
`requeue(300)` both when the entry was already identical and after a
successful patch. -/
def apply (dec : String → Except Unit (List MapRoleSpec))
    (enc : List MapRoleSpec → Except Unit String)
    (env : Env) (spec : MapRoleSpec) : AttemptLog ReconcilerAction :=
  match env.fetchResult with
  | .error _ => ⟨.err .kubeError, none⟩
  | .ok cm =>
    match cm.data with
    | none => ⟨.panic, none⟩
    | some m =>
      match mapGet m "mapRoles" with
      | none => ⟨.panic, none⟩
      | some cmStr =>
        match dec cmStr with
        | .error _ => ⟨.err .yamlError, none⟩
        | .ok entries =>
          let r := applyMerge entries spec
          if r.2 then
            match enc r.1 with
            | .error _ => ⟨.err .yamlError, none⟩
            | .ok newStr =>
              let patch : Patch :=
                [PatchOperation.test "/data/mapRoles" cmStr,
                 PatchOperation.replace "/data/mapRoles" newStr]
              match env.patchResult with
              | .error _ => ⟨.err .kubeError, some patch⟩
              | .ok _ => ⟨.ok (requeue 300), some patch⟩
          else
            ⟨.ok (requeue 300), none⟩

/-- main.rs `cleanup` (lines 150-181): same fetch / unwrap / decode /
removal / conditional patch as the operator.rs version, but returns
`requeue(0)` (no requeue) in every non-error path. -/
def cleanup (dec : String → Except Unit (List MapRoleSpec))
    (enc : List MapRoleSpec → Except Unit String)
    (env : Env) (spec : MapRoleSpec) : AttemptLog ReconcilerAction :=
  match env.fetchResult with
  | .error _ => ⟨.err .kubeError, none⟩
  | .ok cm =>
    match cm.data with
    | none => ⟨.panic, none⟩
    | some m =>
      match mapGet m "mapRoles" with
      | none => ⟨.panic, none⟩
      | some cmStr =>
        match dec cmStr with
        | .error _ => ⟨.err .yamlError, none⟩
        | .ok entries =>
          let r := cleanupMerge entries spec
          if r.2 then
            match enc r.1 with
            | .error _ => ⟨.err .yamlError, none⟩
            | .ok newStr =>
              let patch : Patch :=
                [PatchOperation.test "/data/mapRoles" cmStr,
                 PatchOperation.replace "/data/mapRoles" newStr]
              match env.patchResult with
              | .error _ => ⟨.err .kubeError, some patch⟩
              | .ok _ => ⟨.ok (requeue 0), some patch⟩
          else
            ⟨.ok (requeue 0), none⟩

end Legacy

/-- The predicate the source searches with: `e.rolearn == mr.spec.rolearn`. -/
def keyMatches (d : MapRoleSpec) (e : MapRoleSpec) : Bool :=
  decide (e.rolearn = d.rolearn)

/-- Concrete specs and environments used by the witness theorems. -/
def specA : MapRoleSpec := ⟨"roleA", "alice", ["g1"]⟩

def specA2 : MapRoleSpec := ⟨"roleA", "bob", ["g2"]⟩

def specB : MapRoleSpec := ⟨"roleB", "carol", ["g3"]⟩

def decA : String → Except Unit (List MapRoleSpec) := fun _ => .ok [specA]

def encE : List MapRoleSpec → Except Unit String := fun _ => .ok "enc"

def cmA : ConfigMap := ⟨some [("mapRoles", "text")]⟩

def envOk : Env := ⟨.ok cmA, .ok ()⟩

/-- C2, absent case, in membership form (helper). -/
theorem applyMerge_of_absent (entries : List MapRoleSpec) (d : MapRoleSpec)
    (h : ∀ e ∈ entries, e.rolearn ≠ d.rolearn) :
    Operator.applyMerge entries d = (entries ++ [d], true) := by
  induction entries with
  | nil => rfl
  | cons e rest ih =>
    have he : e.rolearn ≠ d.rolearn := h e (List.mem_cons_self e rest)
    simp only [Operator.applyMerge, if_neg he]
    rw [ih (fun x hx => h x (List.mem_cons_of_mem e hx))]
    rfl

/-- Each rolearn in the apply result comes from the input or the desired
spec (helper). -/
theorem applyMerge_mem_rolearn (entries : List MapRoleSpec) (d : MapRoleSpec) :
    ∀ x ∈ (Operator.applyMerge entries d).1,
      x.rolearn = d.rolearn ∨ ∃ y ∈ entries, x.rolearn = y.rolearn := by
  induction entries with
  | nil =>
    intro x hx
    simp only [Operator.applyMerge, List.mem_singleton] at hx
    exact Or.inl (hx ▸ rfl)
  | cons e rest ih =>
    intro x hx
    simp only [Operator.applyMerge] at hx
    by_cases he : e.rolearn = d.rolearn
    · rw [if_pos he] at hx
      by_cases hdiff : e.username ≠ d.username ∨ e.groups ≠ d.groups
      · rw [if_pos hdiff] at hx
        rcases List.mem_cons.mp hx with h1 | h1
        · exact Or.inr ⟨e, List.mem_cons_self e rest, by rw [h1]⟩
        · exact Or.inr ⟨x, List.mem_cons_of_mem e h1, rfl⟩
      · rw [if_neg hdiff] at hx
        rcases List.mem_cons.mp hx with h1 | h1
        · exact Or.inr ⟨e, List.mem_cons_self e rest, by rw [h1]⟩
        · exact Or.inr ⟨x, List.mem_cons_of_mem e h1, rfl⟩
    · rw [if_neg he] at hx
      rcases List.mem_cons.mp hx with h1 | h1
      · exact Or.inr ⟨e, List.mem_cons_self e rest, by rw [h1]⟩
      · rcases ih x h1 with h2 | ⟨y, hy, h2⟩
        · exact Or.inl h2
        · exact Or.inr ⟨y, List.mem_cons_of_mem e hy, h2⟩

/-- C2: the apply merge follows the spec's algorithm: when no entry has
the desired rolearn, the new list is the old list with the desired spec
appended and changed = true; when the first matching entry differs in
username or groups, exactly that entry's two fields are replaced in place
and changed = true; when the first matching entry is identical the list
is returned unchanged with changed = false. -/
theorem applyMerge_follows_spec (entries : List MapRoleSpec) (d : MapRoleSpec) :
    (entries.findIdx? (keyMatches d) = none →
      Operator.applyMerge entries d = (entries ++ [d], true))
    ∧ (∀ i ei, entries.findIdx? (keyMatches d) = some i →
        entries.get? i = some ei →
        ((ei.username ≠ d.username ∨ ei.groups ≠ d.groups) →
          Operator.applyMerge entries d =
            (entries.set i
              { ei with username := d.username, groups := d.groups }, true))
        ∧ (ei.username = d.username → ei.groups = d.groups →
            Operator.applyMerge entries d = (entries, false))) := by
  induction entries with
  | nil =>
    refine ⟨fun _ => rfl, fun i ei hfind _ => ?_⟩
    simp at hfind
  | cons e rest ih =>
    constructor
    · intro hnone
      rw [List.findIdx?_eq_none_iff] at hnone
      refine applyMerge_of_absent _ _ (fun x hx => ?_)
      have := hnone x hx
      simpa [keyMatches] using this
    · intro i ei hfind hget
      rw [List.findIdx?_cons] at hfind
      by_cases he : e.rolearn = d.rolearn
      · have hkey : keyMatches d e = true := by simp [keyMatches, he]
        rw [if_pos hkey] at hfind
        have hi : i = 0 := by injection hfind with h; exact h.symm
        subst hi
        have hei : ei = e := by
          simp only [List.get?_cons_zero] at hget
          injection hget with h; exact h.symm
        subst hei
        constructor
        · intro hdiff
          simp only [Operator.applyMerge, if_pos he, if_pos hdiff, List.set]
        · intro hu hg
          have hdiff : ¬(ei.username ≠ d.username ∨ ei.groups ≠ d.groups) := by
            push_neg
            exact ⟨hu, hg⟩
          simp only [Operator.applyMerge, if_pos he, if_neg hdiff]
      · have hkey : keyMatches d e = false := by simp [keyMatches, he]
        rw [hkey] at hfind
        simp only [Bool.false_eq_true, if_false, List.findIdx?_start_succ,
          Option.map_eq_some'] at hfind
        obtain ⟨j, hj, hji⟩ := hfind
        subst hji
        have hget' : rest.get? j = some ei := by
          simpa using hget
        have hrec := ih.2 j ei hj hget'
        constructor
        · intro hdiff
          have h1 := hrec.1 hdiff
          simp only [Operator.applyMerge, if_neg he, h1, List.set]
        · intro hu hg
          have h1 := hrec.2 hu hg
          simp only [Operator.applyMerge, if_neg he, h1]

/-- C2 witness: the three branches of the algorithm at concrete inputs
(scenarios 1-3 of the spec). -/
theorem applyMerge_follows_spec_witness :
    Operator.applyMerge [] specA = ([] ++ [specA], true)
    ∧ Operator.applyMerge [specA] specA2 =
        ([specA].set 0 { specA with username := specA2.username,
                                    groups := specA2.groups }, true)
    ∧ Operator.applyMerge [specA] specA = ([specA], false) :=
  ⟨(applyMerge_follows_spec [] specA).1 (by decide),
   ((applyMerge_follows_spec [specA] specA2).2 0 specA (by decide) rfl).1
     (by decide),
   ((applyMerge_follows_spec [specA] specA).2 0 specA (by decide) rfl).2
     rfl rfl⟩

/-- C4: when no two entries share a rolearn, no two entries of the apply
merge result share a rolearn. -/
theorem applyMerge_preserves_key_uniqueness (entries : List MapRoleSpec)
    (d : MapRoleSpec)
    (h : entries.Pairwise (fun a b => a.rolearn ≠ b.rolearn)) :
    ((Operator.applyMerge entries d).1).Pairwise
      (fun a b => a.rolearn ≠ b.rolearn) := by
  induction entries with
  | nil => simp [Operator.applyMerge]
  | cons e rest ih =>
    rw [List.pairwise_cons] at h
    obtain ⟨he, hrest⟩ := h
    simp only [Operator.applyMerge]
    by_cases hkey : e.rolearn = d.rolearn
    · rw [if_pos hkey]
      by_cases hdiff : e.username ≠ d.username ∨ e.groups ≠ d.groups
      · rw [if_pos hdiff]
        exact List.pairwise_cons.mpr ⟨he, hrest⟩
      · rw [if_neg hdiff]
        exact List.pairwise_cons.mpr ⟨he, hrest⟩
    · rw [if_neg hkey]
      refine List.pairwise_cons.mpr ⟨?_, ih hrest⟩
      intro x hx
      rcases applyMerge_mem_rolearn rest d x hx with h1 | ⟨y, hy, h1⟩
      · rw [h1]; exact hkey
      · rw [h1]; exact he y hy

/-- C4 witness: uniqueness preserved on a concrete unique-key list. -/
theorem applyMerge_preserves_key_uniqueness_witness :
    ((Operator.applyMerge [specA] specB).1).Pairwise
      (fun a b => a.rolearn ≠ b.rolearn) :=
  applyMerge_preserves_key_uniqueness [specA] specB (by decide)

/-- C5: the cleanup merge removes at most one entry - the first whose
rolearn matches the desired one - leaving every other entry in place and
in order (the list with that one index erased), and reports
changed = false when no entry matches. -/
theorem cleanupMerge_follows_spec (entries : List MapRoleSpec)
    (d : MapRoleSpec) :
    (entries.findIdx? (keyMatches d) = none →
      Operator.cleanupMerge entries d = (entries, false))
    ∧ (∀ i, entries.findIdx? (keyMatches d) = some i →
        Operator.cleanupMerge entries d = (entries.eraseIdx i, true)) := by
  induction entries with
  | nil => exact ⟨fun _ => rfl, fun i h => by simp at h⟩
  | cons e rest ih =>
    constructor
    · intro hnone
      rw [List.findIdx?_eq_none_iff] at hnone
      have he : ¬(e.rolearn = d.rolearn) := by
        have := hnone e (List.mem_cons_self e rest)
        simpa [keyMatches] using this
      have hrest : rest.findIdx? (keyMatches d) = none := by
        rw [List.findIdx?_eq_none_iff]
        exact fun x hx => hnone x (List.mem_cons_of_mem e hx)
      simp only [Operator.cleanupMerge, if_neg he, ih.1 hrest]
    · intro i hfind
      rw [List.findIdx?_cons] at hfind
      by_cases he : e.rolearn = d.rolearn
      · have hkey : keyMatches d e = true := by simp [keyMatches, he]
        rw [if_pos hkey] at hfind
        have hi : i = 0 := by injection hfind with h; exact h.symm
        subst hi
        simp only [Operator.cleanupMerge, if_pos he, List.eraseIdx]
      · have hkey : keyMatches d e = false := by simp [keyMatches, he]
        rw [hkey] at hfind
        simp only [Bool.false_eq_true, if_false, List.findIdx?_start_succ,
          Option.map_eq_some'] at hfind
        obtain ⟨j, hj, hji⟩ := hfind
        subst hji
        simp only [Operator.cleanupMerge, if_neg he, ih.2 j hj,
          List.eraseIdx]

/-- C5 witness: the no-match and first-match branches at concrete inputs
(scenario 4 of the spec). -/
theorem cleanupMerge_follows_spec_witness :
    Operator.cleanupMerge [specA] specB = ([specA], false)
    ∧ Operator.cleanupMerge [specA, specB] specA =
        ([specA, specB].eraseIdx 0, true) :=
  ⟨(cleanupMerge_follows_spec [specA] specB).1 (by decide),
   (cleanupMerge_follows_spec [specA, specB] specA).2 0 (by decide)⟩

/-- C8: the apply merge is idempotent: merging a second time with the
same desired spec returns the same list and changed = false. -/
theorem applyMerge_idempotent (entries : List MapRoleSpec)
    (d : MapRoleSpec) :
    Operator.applyMerge (Operator.applyMerge entries d).1 d =
      ((Operator.applyMerge entries d).1, false) := by
  induction entries with
  | nil =>
    simp [Operator.applyMerge]
  | cons e rest ih =>
    by_cases hkey : e.rolearn = d.rolearn
    · by_cases hdiff : e.username ≠ d.username ∨ e.groups ≠ d.groups
      · simp [Operator.applyMerge, if_pos hkey, if_pos hdiff]
      · push_neg at hdiff
        simp [Operator.applyMerge, if_pos hkey, hdiff.1, hdiff.2]
    · simp only [Operator.applyMerge, if_neg hkey]
      rw [ih]

/-- C9: when no entry has the desired rolearn, cleanup undoes apply:
merging the desired spec in and then cleaning it up returns exactly the
original entry list (and reports that an entry was removed). -/
theorem cleanupMerge_left_inverse_of_applyMerge (entries : List MapRoleSpec)
    (d : MapRoleSpec) (h : ∀ e ∈ entries, e.rolearn ≠ d.rolearn) :
    Operator.cleanupMerge (Operator.applyMerge entries d).1 d =
      (entries, true) := by
  induction entries with
  | nil => simp [Operator.applyMerge, Operator.cleanupMerge]
  | cons e rest ih =>
    have he : e.rolearn ≠ d.rolearn := h e (List.mem_cons_self e rest)
    simp only [Operator.applyMerge, if_neg he, Operator.cleanupMerge]
    rw [ih (fun x hx => h x (List.mem_cons_of_mem e hx))]

/-- C9 witness: cleanup after apply restores a concrete list whose keys
do not contain the desired one. -/
theorem cleanupMerge_left_inverse_of_applyMerge_witness :
    Operator.cleanupMerge (Operator.applyMerge [specA] specB).1 specB =
      ([specA], true) :=
  cleanupMerge_left_inverse_of_applyMerge [specA] specB (by decide)

/-- C1: every patch either attempt submits is exactly the two-operation
conditional patch: a Test asserting the mapRoles field equals the text
fetched at the start of that same attempt, then a Replace setting it to
the serialization of the merged entry list; no other write is ever
submitted. -/
theorem submitted_patch_is_conditional
    (dec : String → Except Unit (List MapRoleSpec))
    (enc : List MapRoleSpec → Except Unit String)
    (env : Env) (spec : MapRoleSpec) (p : Patch) :
    ((Operator.apply dec enc env spec).submitted = some p →
      ∃ cm m cmStr newStr entries,
        env.fetchResult = .ok cm ∧ cm.data = some m ∧
        mapGet m "mapRoles" = some cmStr ∧ dec cmStr = .ok entries ∧
        enc (Operator.applyMerge entries spec).1 = .ok newStr ∧
        p = [PatchOperation.test "/data/mapRoles" cmStr,
             PatchOperation.replace "/data/mapRoles" newStr])
    ∧ ((Operator.cleanup dec enc env spec).submitted = some p →
      ∃ cm m cmStr newStr entries,
        env.fetchResult = .ok cm ∧ cm.data = some m ∧
        mapGet m "mapRoles" = some cmStr ∧ dec cmStr = .ok entries ∧
        enc (Operator.cleanupMerge entries spec).1 = .ok newStr ∧
        p = [PatchOperation.test "/data/mapRoles" cmStr,
             PatchOperation.replace "/data/mapRoles" newStr]) := by
  constructor
  · intro h
    cases hf : env.fetchResult with
    | error e => simp [Operator.apply, hf] at h
    | ok cm =>
      cases hm : cm.data with
      | none => simp [Operator.apply, hf, hm] at h
      | some m =>
        cases hs : mapGet m "mapRoles" with
        | none => simp [Operator.apply, hf, hm, hs] at h
        | some cmStr =>
          cases hd : dec cmStr with
          | error e => simp [Operator.apply, hf, hm, hs, hd] at h
          | ok entries =>
            cases hch : (Operator.applyMerge entries spec).2 with
            | false => simp [Operator.apply, hf, hm, hs, hd, hch] at h
            | true =>
              cases henc : enc (Operator.applyMerge entries spec).1 with
              | error e =>
                simp [Operator.apply, hf, hm, hs, hd, hch, henc] at h
              | ok newStr =>
                cases hp : env.patchResult with
                | error e =>
                  simp [Operator.apply, hf, hm, hs, hd, hch, henc, hp] at h
                  exact ⟨cm, m, cmStr, newStr, entries, rfl, hm, hs, hd,
                    henc, by simp [h]⟩
                | ok u =>
                  simp [Operator.apply, hf, hm, hs, hd, hch, henc, hp] at h
                  exact ⟨cm, m, cmStr, newStr, entries, rfl, hm, hs, hd,
                    henc, by simp [h]⟩
  · intro h
    cases hf : env.fetchResult with
    | error e => simp [Operator.cleanup, hf] at h
    | ok cm =>
      cases hm : cm.data with
      | none => simp [Operator.cleanup, hf, hm] at h
      | some m =>
        cases hs : mapGet m "mapRoles" with
        | none => simp [Operator.cleanup, hf, hm, hs] at h
        | some cmStr =>
          cases hd : dec cmStr with
          | error e => simp [Operator.cleanup, hf, hm, hs, hd] at h
          | ok entries =>
            cases hch : (Operator.cleanupMerge entries spec).2 with
            | false => simp [Operator.cleanup, hf, hm, hs, hd, hch] at h
            | true =>
              cases henc : enc (Operator.cleanupMerge entries spec).1 with
              | error e =>
                simp [Operator.cleanup, hf, hm, hs, hd, hch, henc] at h
              | ok newStr =>
                cases hp : env.patchResult with
                | error e =>
                  simp [Operator.cleanup, hf, hm, hs, hd, hch, henc, hp] at h
                  exact ⟨cm, m, cmStr, newStr, entries, rfl, hm, hs, hd,
                    henc, by simp [h]⟩
                | ok u =>
                  simp [Operator.cleanup, hf, hm, hs, hd, hch, henc, hp] at h
                  exact ⟨cm, m, cmStr, newStr, entries, rfl, hm, hs, hd,
                    henc, by simp [h]⟩

/-- C1 witness: a concrete apply that submits a patch, and what that
patch is. -/
theorem submitted_patch_is_conditional_witness :
    ∃ cm m cmStr newStr entries,
      envOk.fetchResult = .ok cm ∧ cm.data = some m ∧
      mapGet m "mapRoles" = some cmStr ∧ decA cmStr = .ok entries ∧
      encE (Operator.applyMerge entries specB).1 = .ok newStr ∧
      [PatchOperation.test "/data/mapRoles" "text",
       PatchOperation.replace "/data/mapRoles" "enc"] =
        [PatchOperation.test "/data/mapRoles" cmStr,
         PatchOperation.replace "/data/mapRoles" newStr] :=
  (submitted_patch_is_conditional decA encE envOk specB
    [PatchOperation.test "/data/mapRoles" "text",
     PatchOperation.replace "/data/mapRoles" "enc"]).1 (by decide)

/-- C3: when the merge reports no change - the desired entry already
identical on the apply path, or no matching entry on the cleanup path -
the attempt submits no patch at all. -/
theorem no_change_no_patch
    (dec : String → Except Unit (List MapRoleSpec))
    (enc : List MapRoleSpec → Except Unit String)
    (env : Env) (spec : MapRoleSpec) (cm : ConfigMap)
    (m : List (String × String)) (cmStr : String)
    (entries : List MapRoleSpec)
    (hf : env.fetchResult = .ok cm) (hm : cm.data = some m)
    (hs : mapGet m "mapRoles" = some cmStr)
    (hd : dec cmStr = .ok entries) :
    ((Operator.applyMerge entries spec).2 = false →
      (Operator.apply dec enc env spec).submitted = none)
    ∧ ((Operator.cleanupMerge entries spec).2 = false →
      (Operator.cleanup dec enc env spec).submitted = none) := by
  constructor
  · intro hch
    simp [Operator.apply, hf, hm, hs, hd, hch]
  · intro hch
    simp [Operator.cleanup, hf, hm, hs, hd, hch]

/-- C3 witness: an already-identical apply and an already-absent cleanup
submit nothing. -/
theorem no_change_no_patch_witness :
    (Operator.apply decA encE envOk specA).submitted = none
    ∧ (Operator.cleanup decA encE envOk specB).submitted = none :=
  ⟨(no_change_no_patch decA encE envOk specA cmA [("mapRoles", "text")]
      "text" [specA] rfl rfl (by decide) rfl).1 (by decide),
   (no_change_no_patch decA encE envOk specB cmA [("mapRoles", "text")]
      "text" [specA] rfl rfl (by decide) rfl).2 (by decide)⟩

/-- Panic characterization of the apply path (helper): apply aborts with
a panic exactly when the fetch succeeded but the data section or the
mapRoles field is missing. -/
theorem apply_panic_iff (dec : String → Except Unit (List MapRoleSpec))
    (enc : List MapRoleSpec → Except Unit String)
    (env : Env) (spec : MapRoleSpec) :
    (Operator.apply dec enc env spec).result = .panic ↔
      ∃ cm, env.fetchResult = .ok cm ∧ cm.getData "mapRoles" = none := by
  cases hf : env.fetchResult with
  | error e => simp [Operator.apply, hf]
  | ok cm =>
    cases hm : cm.data with
    | none => simp [Operator.apply, hf, hm, ConfigMap.getData]
    | some m =>
      cases hs : mapGet m "mapRoles" with
      | none => simp [Operator.apply, hf, hm, hs, ConfigMap.getData]
      | some cmStr =>
        cases hd : dec cmStr with
        | error e => simp [Operator.apply, hf, hm, hs, hd, ConfigMap.getData]
        | ok entries =>
          cases hch : (Operator.applyMerge entries spec).2 with
          | false =>
            simp [Operator.apply, hf, hm, hs, hd, hch, ConfigMap.getData]
          | true =>
            cases henc : enc (Operator.applyMerge entries spec).1 with
            | error e =>
              simp [Operator.apply, hf, hm, hs, hd, hch, henc,
                ConfigMap.getData]
            | ok newStr =>
              cases hp : env.patchResult with
              | error e =>
                simp [Operator.apply, hf, hm, hs, hd, hch, henc, hp,
                  ConfigMap.getData]
              | ok u =>
                simp [Operator.apply, hf, hm, hs, hd, hch, henc, hp,
                  ConfigMap.getData]

/-- Panic characterization of the cleanup path (helper). -/
theorem cleanup_panic_iff (dec : String → Except Unit (List MapRoleSpec))
    (enc : List MapRoleSpec → Except Unit String)
    (env : Env) (spec : MapRoleSpec) :
    (Operator.cleanup dec enc env spec).result = .panic ↔
      ∃ cm, env.fetchResult = .ok cm ∧ cm.getData "mapRoles" = none := by
  cases hf : env.fetchResult with
  | error e => simp [Operator.cleanup, hf]
  | ok cm =>
    cases hm : cm.data with
    | none => simp [Operator.cleanup, hf, hm, ConfigMap.getData]
    | some m =>
      cases hs : mapGet m "mapRoles" with
      | none => simp [Operator.cleanup, hf, hm, hs, ConfigMap.getData]
      | some cmStr =>
        cases hd : dec cmStr with
        | error e =>
          simp [Operator.cleanup, hf, hm, hs, hd, ConfigMap.getData]
        | ok entries =>
          cases hch : (Operator.cleanupMerge entries spec).2 with
          | false =>
            simp [Operator.cleanup, hf, hm, hs, hd, hch, ConfigMap.getData]
          | true =>
            cases henc : enc (Operator.cleanupMerge entries spec).1 with
            | error e =>
              simp [Operator.cleanup, hf, hm, hs, hd, hch, henc,
                ConfigMap.getData]
            | ok newStr =>
              cases hp : env.patchResult with
              | error e =>
                simp [Operator.cleanup, hf, hm, hs, hd, hch, henc, hp,
                  ConfigMap.getData]
              | ok u =>
                simp [Operator.cleanup, hf, hm, hs, hd, hch, henc, hp,
                  ConfigMap.getData]

/-- C6 counterexample: the reconciler does abort with a panic - at a
fetched record whose data section is missing, and at a desired object
lacking a namespace - instead of returning an error value. -/
theorem reconcile_panics_counterexample :
    (Operator.reconcile decA encE ⟨.ok ⟨none⟩, .ok ()⟩ .applyEv
        ⟨some "ns", specA⟩).result = .panic
    ∧ (Operator.reconcile decA encE envOk .applyEv
        ⟨none, specA⟩).result = .panic
    ∧ (Operator.reconcile decA encE ⟨.ok ⟨some []⟩, .ok ()⟩ .cleanupEv
        ⟨some "ns", specA⟩).result = .panic := by
  refine ⟨?_, rfl, ?_⟩ <;> decide

/-- C6 amended: kube API and YAML failures are returned as error values,
but the reconciler panics - it does not return an error - exactly when
the desired object lacks a namespace or the fetched record's data section
or mapRoles field is missing. -/
theorem reconcile_panic_characterization
    (dec : String → Except Unit (List MapRoleSpec))
    (enc : List MapRoleSpec → Except Unit String)
    (env : Env) (ev : FinalizerEvent) (mr : Operator.MapRole) :
    ((Operator.reconcile dec enc env ev mr).result = .panic ↔
      mr.namespace_ = none ∨
        ∃ cm, env.fetchResult = .ok cm ∧ cm.getData "mapRoles" = none)
    ∧ (mr.namespace_.isSome = true → env.fetchResult = .error () →
      (Operator.reconcile dec enc env ev mr).result = .err .kubeError) := by
  constructor
  · cases hns : mr.namespace_ with
    | none => simp [Operator.reconcile, hns]
    | some n =>
      cases ev with
      | applyEv =>
        simp only [Operator.reconcile, hns]
        rw [apply_panic_iff]
        simp
      | cleanupEv =>
        simp only [Operator.reconcile, hns]
        rw [cleanup_panic_iff]
        simp
  · intro h1 h2
    cases hns : mr.namespace_ with
    | none => rw [hns] at h1; simp at h1
    | some n =>
      cases ev with
      | applyEv => simp [Operator.reconcile, hns, Operator.apply, h2]
      | cleanupEv => simp [Operator.reconcile, hns, Operator.cleanup, h2]

/-- C6 amended witness: the characterization at concrete inputs - a
missing namespace makes the attempt panic, and a kube fetch failure is
returned as an error value. -/
theorem reconcile_panic_characterization_witness :
    (Operator.reconcile decA encE ⟨.error (), .ok ()⟩ .applyEv
        ⟨none, specA⟩).result = .panic
    ∧ (Operator.reconcile decA encE ⟨.error (), .ok ()⟩ .applyEv
        ⟨some "ns", specA⟩).result = .err .kubeError :=
  ⟨(reconcile_panic_characterization decA encE ⟨.error (), .ok ()⟩ .applyEv
      ⟨none, specA⟩).1.mpr (Or.inl rfl),
   (reconcile_panic_characterization decA encE ⟨.error (), .ok ()⟩ .applyEv
      ⟨some "ns", specA⟩).2 rfl rfl⟩

/-- C7 counterexample: the three successful outcomes do not share one
long requeue interval: at concrete inputs, an apply that patched
requeues at 300 seconds, an apply that found the entry identical
requeues at 60 seconds, and a cleanup that removed the entry returns
await_change, scheduling no timed recheck at all. -/
theorem requeue_intervals_counterexample :
    (Operator.apply decA encE envOk specB).result = .ok (.requeue 300)
    ∧ (Operator.apply decA encE envOk specA).result = .ok (.requeue 60)
    ∧ (Operator.cleanup decA encE envOk specA).result = .ok .awaitChange
    ∧ Action.requeue 300 ≠ Action.requeue 60
    ∧ Action.awaitChange ≠ Action.requeue 300
    ∧ Action.awaitChange ≠ Action.requeue 60 := by
  refine ⟨?_, ?_, ?_, ?_, ?_, ?_⟩ <;> decide

/-- C7 amended: an apply that submitted its patch successfully requeues
at 300 seconds; an apply that found the entry already identical requeues
at 60 seconds; a successful cleanup returns await_change - no timed
recheck - whether or not it removed an entry. -/
theorem requeue_actions_amended
    (dec : String → Except Unit (List MapRoleSpec))
    (enc : List MapRoleSpec → Except Unit String)
    (env : Env) (spec : MapRoleSpec) (cm : ConfigMap)
    (m : List (String × String)) (cmStr : String)
    (entries : List MapRoleSpec)
    (hf : env.fetchResult = .ok cm) (hm : cm.data = some m)
    (hs : mapGet m "mapRoles" = some cmStr)
    (hd : dec cmStr = .ok entries)
    (hp : env.patchResult = .ok ()) :
    ((Operator.applyMerge entries spec).2 = false →
      (Operator.apply dec enc env spec).result = .ok (.requeue 60))
    ∧ (∀ newStr, (Operator.applyMerge entries spec).2 = true →
        enc (Operator.applyMerge entries spec).1 = .ok newStr →
        (Operator.apply dec enc env spec).result = .ok (.requeue 300))
    ∧ ((Operator.cleanupMerge entries spec).2 = false →
        (Operator.cleanup dec enc env spec).result = .ok .awaitChange)
    ∧ (∀ newStr, (Operator.cleanupMerge entries spec).2 = true →
        enc (Operator.cleanupMerge entries spec).1 = .ok newStr →
        (Operator.cleanup dec enc env spec).result = .ok .awaitChange) := by
  refine ⟨?_, ?_, ?_, ?_⟩
  · intro hch
    simp [Operator.apply, hf, hm, hs, hd, hch]
  · intro newStr hch henc
    simp [Operator.apply, hf, hm, hs, hd, hch, henc, hp]
  · intro hch
    simp [Operator.cleanup, hf, hm, hs, hd, hch]
  · intro newStr hch henc
    simp [Operator.cleanup, hf, hm, hs, hd, hch, henc, hp]

/-- C7 amended witness: the four branches at concrete inputs. -/
theorem requeue_actions_amended_witness :
    (Operator.apply decA encE envOk specA).result = .ok (.requeue 60)
    ∧ (Operator.apply decA encE envOk specB).result = .ok (.requeue 300)
    ∧ (Operator.cleanup decA encE envOk specB).result = .ok .awaitChange
    ∧ (Operator.cleanup decA encE envOk specA).result = .ok .awaitChange :=
  ⟨(requeue_actions_amended decA encE envOk specA cmA [("mapRoles", "text")]
      "text" [specA] rfl rfl (by decide) rfl rfl).1 (by decide),
   (requeue_actions_amended decA encE envOk specB cmA [("mapRoles", "text")]
      "text" [specA] rfl rfl (by decide) rfl rfl).2.1 "enc" (by decide) rfl,
   (requeue_actions_amended decA encE envOk specB cmA [("mapRoles", "text")]
      "text" [specA] rfl rfl (by decide) rfl rfl).2.2.1 (by decide),
   (requeue_actions_amended decA encE envOk specA cmA [("mapRoles", "text")]
      "text" [specA] rfl rfl (by decide) rfl rfl).2.2.2 "enc" (by decide) rfl⟩

/-- The legacy apply merge computes the same list and flag as the current
one (helper). -/
theorem legacy_applyMerge_eq (entries : List MapRoleSpec)
    (d : MapRoleSpec) :
    Legacy.applyMerge entries d = Operator.applyMerge entries d := by
  induction entries with
  | nil => rfl
  | cons e rest ih =>
    simp only [Legacy.applyMerge, Operator.applyMerge, ih]

/-- The legacy cleanup merge computes the same list and flag as the
current one (helper). -/
theorem legacy_cleanupMerge_eq (entries : List MapRoleSpec)
    (d : MapRoleSpec) :
    Legacy.cleanupMerge entries d = Operator.cleanupMerge entries d := by
  induction entries with
  | nil => rfl
  | cons e rest ih =>
    simp only [Legacy.cleanupMerge, Operator.cleanupMerge, ih]

/-- The legacy and current apply attempts submit the same patch and have
the same result shape (helper). -/
theorem legacy_apply_log_eq (dec : String → Except Unit (List MapRoleSpec))
    (enc : List MapRoleSpec → Except Unit String)
    (env : Env) (spec : MapRoleSpec) :
    (Legacy.apply dec enc env spec).submitted =
        (Operator.apply dec enc env spec).submitted
    ∧ (Legacy.apply dec enc env spec).result.forget =
        (Operator.apply dec enc env spec).result.forget := by
  cases hf : env.fetchResult with
  | error e => simp [Legacy.apply, Operator.apply, hf, StepResult.forget]
  | ok cm =>
    cases hm : cm.data with
    | none => simp [Legacy.apply, Operator.apply, hf, hm, StepResult.forget]
    | some m =>
      cases hs : mapGet m "mapRoles" with
      | none =>
        simp [Legacy.apply, Operator.apply, hf, hm, hs, StepResult.forget]
      | some cmStr =>
        cases hd : dec cmStr with
        | error e =>
          simp [Legacy.apply, Operator.apply, hf, hm, hs, hd,
            StepResult.forget]
        | ok entries =>
          cases hch : (Operator.applyMerge entries spec).2 with
          | false =>
            simp [Legacy.apply, Operator.apply, hf, hm, hs, hd, hch,
              legacy_applyMerge_eq, StepResult.forget]
          | true =>
            cases henc : enc (Operator.applyMerge entries spec).1 with
            | error e =>
              simp [Legacy.apply, Operator.apply, hf, hm, hs, hd, hch,
                henc, legacy_applyMerge_eq, StepResult.forget]
            | ok newStr =>
              cases hp : env.patchResult with
              | error e =>
                simp [Legacy.apply, Operator.apply, hf, hm, hs, hd, hch,
                  henc, hp, legacy_applyMerge_eq, StepResult.forget]
              | ok u =>
                simp [Legacy.apply, Operator.apply, hf, hm, hs, hd, hch,
                  henc, hp, legacy_applyMerge_eq, Legacy.requeue,
                  StepResult.forget]

/-- The legacy and current cleanup attempts submit the same patch and
have the same result shape (helper). -/
theorem legacy_cleanup_log_eq
    (dec : String → Except Unit (List MapRoleSpec))
    (enc : List MapRoleSpec → Except Unit String)
    (env : Env) (spec : MapRoleSpec) :
    (Legacy.cleanup dec enc env spec).submitted =
        (Operator.cleanup dec enc env spec).submitted
    ∧ (Legacy.cleanup dec enc env spec).result.forget =
        (Operator.cleanup dec enc env spec).result.forget := by
  cases hf : env.fetchResult with
  | error e => simp [Legacy.cleanup, Operator.cleanup, hf, StepResult.forget]
  | ok cm =>
    cases hm : cm.data with
    | none =>
      simp [Legacy.cleanup, Operator.cleanup, hf, hm, StepResult.forget]
    | some m =>
      cases hs : mapGet m "mapRoles" with
      | none =>
        simp [Legacy.cleanup, Operator.cleanup, hf, hm, hs,
          StepResult.forget]
      | some cmStr =>
        cases hd : dec cmStr with
        | error e =>
          simp [Legacy.cleanup, Operator.cleanup, hf, hm, hs, hd,
            StepResult.forget]
        | ok entries =>
          cases hch : (Operator.cleanupMerge entries spec).2 with
          | false =>
            simp [Legacy.cleanup, Operator.cleanup, hf, hm, hs, hd, hch,
              legacy_cleanupMerge_eq, Legacy.requeue, StepResult.forget]
          | true =>
            cases henc : enc (Operator.cleanupMerge entries spec).1 with
            | error e =>
              simp [Legacy.cleanup, Operator.cleanup, hf, hm, hs, hd, hch,
                henc, legacy_cleanupMerge_eq, StepResult.forget]
            | ok newStr =>
              cases hp : env.patchResult with
              | error e =>
                simp [Legacy.cleanup, Operator.cleanup, hf, hm, hs, hd,
                  hch, henc, hp, legacy_cleanupMerge_eq, StepResult.forget]
              | ok u =>
                simp [Legacy.cleanup, Operator.cleanup, hf, hm, hs, hd,
                  hch, henc, hp, legacy_cleanupMerge_eq, Legacy.requeue,
                  StepResult.forget]

/-- C10: the legacy binary (main.rs) and the current binary (operator.rs)
implement the same reconciliation logic: the two apply merges and the two
cleanup merges compute identical entry lists and flags, and for every
fetched state the two apply attempts - and the two cleanup attempts -
submit the identical conditional patch and have the same result shape,
differing only in the requeue action returned. -/
theorem legacy_matches_operator
    (dec : String → Except Unit (List MapRoleSpec))
    (enc : List MapRoleSpec → Except Unit String)
    (env : Env) (spec : MapRoleSpec)
    (entries : List MapRoleSpec) (d : MapRoleSpec) :
    Legacy.applyMerge entries d = Operator.applyMerge entries d
    ∧ Legacy.cleanupMerge entries d = Operator.cleanupMerge entries d
    ∧ (Legacy.apply dec enc env spec).submitted =
        (Operator.apply dec enc env spec).submitted
    ∧ (Legacy.apply dec enc env spec).result.forget =
        (Operator.apply dec enc env spec).result.forget
    ∧ (Legacy.cleanup dec enc env spec).submitted =
        (Operator.cleanup dec enc env spec).submitted
    ∧ (Legacy.cleanup dec enc env spec).result.forget =
        (Operator.cleanup dec enc env spec).result.forget :=
  ⟨legacy_applyMerge_eq entries d, legacy_cleanupMerge_eq entries d,
   (legacy_apply_log_eq dec enc env spec).1,
   (legacy_apply_log_eq dec enc env spec).2,
   (legacy_cleanup_log_eq dec enc env spec).1,
   (legacy_cleanup_log_eq dec enc env spec).2⟩

end AwsAuth
